import Mathlib

/-!
# mbedTLS network adapter over lwIP sockets (`src/connect/tls/net_sockets.c`)

A shallow embedding of the five operations of `net_sockets.c`
(`mbedtls_net_init`, `mbedtls_net_connect`, `mbedtls_net_recv`,
`mbedtls_net_send`, `mbedtls_net_free`) and of the static helper
`net_would_block`.

* C `int` values are modelled as `Int`; the file performs no arithmetic on them,
  only comparisons.
* The calls into the socket layer (`lwip_getaddrinfo`, `socket`, `setsockopt`,
  `connect`, `close`, `read`, `write`, `lwip_fcntl`, `lwip_shutdown`) are external.
  Their results are oracle values handed to the model, and every call that is
  issued is appended to a trace.
* The symbolic constants come from headers that are not among the sources
  (`mbedtls/net_sockets.h`, `mbedtls/ssl.h`, `lwip/sockets.h`, `errno.h`); they
  are parameters of the model.
-/

namespace NetSockets

/-! ## Constants of the included headers -/

/-- Symbolic constants used by `net_sockets.c`. Their definitions live in headers
outside the translated sources, so the model is parametric in their values. -/
structure Consts where
  MBEDTLS_ERR_NET_SOCKET_FAILED : Int
  MBEDTLS_ERR_NET_CONNECT_FAILED : Int
  MBEDTLS_ERR_NET_UNKNOWN_HOST : Int
  MBEDTLS_ERR_NET_INVALID_CONTEXT : Int
  MBEDTLS_ERR_NET_CONN_RESET : Int
  MBEDTLS_ERR_NET_RECV_FAILED : Int
  MBEDTLS_ERR_NET_SEND_FAILED : Int
  MBEDTLS_ERR_SSL_WANT_READ : Int
  MBEDTLS_ERR_SSL_WANT_WRITE : Int
  EAGAIN : Int
  EWOULDBLOCK : Int
  EPIPE : Int
  ECONNRESET : Int
  EINTR : Int
  O_NONBLOCK : Int
  deriving DecidableEq, Repr

/-- One valuation of the constants, used for concrete evaluations: the error codes
of mbedTLS 2.x (`-0x0042`, `-0x0044`, `-0x0052`, `-0x0045`, `-0x0050`, `-0x004C`,
`-0x004E`, `-0x6900`, `-0x6880`) and the errno and `O_NONBLOCK` values of lwIP. -/
def lwipConsts : Consts where
  MBEDTLS_ERR_NET_SOCKET_FAILED := -66
  MBEDTLS_ERR_NET_CONNECT_FAILED := -68
  MBEDTLS_ERR_NET_UNKNOWN_HOST := -82
  MBEDTLS_ERR_NET_INVALID_CONTEXT := -69
  MBEDTLS_ERR_NET_CONN_RESET := -80
  MBEDTLS_ERR_NET_RECV_FAILED := -76
  MBEDTLS_ERR_NET_SEND_FAILED := -78
  MBEDTLS_ERR_SSL_WANT_READ := -26880
  MBEDTLS_ERR_SSL_WANT_WRITE := -26752
  EAGAIN := 11
  EWOULDBLOCK := 11
  EPIPE := 32
  ECONNRESET := 104
  EINTR := 4
  O_NONBLOCK := 1

/-! ## Data model -/

/-- The transport context `mbedtls_net_context`: the socket handle `fd`
(`-1` when unset) and the timeout in seconds (`0` when not configured). -/
structure mbedtls_net_context where
  fd : Int
  timeout_s : Int
  deriving DecidableEq, Repr

/-- The two socket options set by `mbedtls_net_connect`. -/
inductive SockOpt where
  | SO_RCVTIMEO
  | SO_SNDTIMEO
  deriving DecidableEq, Repr

/-- A call issued to the socket layer, with the arguments that identify it.
`socket r` records the call of `socket` together with its result `r`. -/
inductive Call where
  | getaddrinfo
  | freeaddrinfo
  | socket (r : Int)
  | setsockopt (fd : Int) (opt : SockOpt) (tv_sec : Int)
  | connect (fd : Int)
  | close (fd : Int)
  | shutdown (fd : Int) (how : Int)
  | read (fd : Int) (len : Nat)
  | write (fd : Int) (len : Nat)
  | fcntl_getfl (fd : Int)
  deriving DecidableEq, Repr

/-- The socket layer as seen by the adapter: the descriptors that are currently open
and the calls issued so far, oldest first. -/
structure World where
  opened : List Int
  trace : List Call
  deriving DecidableEq, Repr

/-- Record a call. -/
def World.log (w : World) (c : Call) : World :=
  { w with trace := w.trace ++ [c] }

/-- The call `socket(...)` with result `r`: a non-negative result is a descriptor
that is open from now on. -/
def World.socket (w : World) (r : Int) : World :=
  { opened := if 0 ≤ r then r :: w.opened else w.opened
    trace := w.trace ++ [Call.socket r] }

/-- The call `close(fd)`: the descriptor is no longer open. -/
def World.close (w : World) (fd : Int) : World :=
  { opened := w.opened.filter (fun d => d ≠ fd)
    trace := w.trace ++ [Call.close fd] }

/-- What an operation leaves behind: the returned `int`, the context and the
socket layer. -/
structure Outcome where
  ret : Int
  ctx : mbedtls_net_context
  world : World
  deriving DecidableEq, Repr

/-! ## `mbedtls_net_init` -/

/-- `mbedtls_net_init`: `ctx->fd = -1; ctx->timeout_s = 0;`. -/
def mbedtls_net_init (_ctx : mbedtls_net_context) : mbedtls_net_context :=
  { fd := -1, timeout_s := 0 }

/-! ## `mbedtls_net_connect` -/

/-- One node of the list returned by `lwip_getaddrinfo`, given by the results of
the calls the loop body makes for it: `socket`, the two `setsockopt` calls and
`connect`. A call that the loop body does not reach leaves its field unused. -/
structure Candidate where
  sock : Int
  rcvtimeo : Int
  sndtimeo : Int
  conn : Int
  deriving DecidableEq, Repr

/-- Result of `lwip_getaddrinfo`: its return value and the list stored
in `addr_list`. -/
structure Resolution where
  rc : Int
  addr_list : List Candidate
  deriving DecidableEq, Repr

/-- The `if (ctx->timeout_s != 0) { ... }` block of the loop body. The boolean is
`false` when one of the `setsockopt` calls returned `-1` (`goto ERR`). -/
def set_timeouts (timeout_s : Int) (a : Candidate) (fd : Int) (w : World) : Bool × World :=
  if timeout_s ≠ 0 then
    let w1 := w.log (Call.setsockopt fd SockOpt.SO_RCVTIMEO timeout_s)
    if a.rcvtimeo = -1 then (false, w1)
    else
      let w2 := w1.log (Call.setsockopt fd SockOpt.SO_SNDTIMEO timeout_s)
      if a.sndtimeo = -1 then (false, w2) else (true, w2)
  else (true, w)

/-- The `for (cur = addr_list; cur != NULL; cur = cur->ai_next)` loop. The state is
the local `ret`, the field `ctx->fd` and the socket layer; the result is that
state when the loop is left (by `break` or at the end of the list). -/
def connect_loop (K : Consts) (timeout_s : Int) :
    List Candidate → Int → Int → World → Int × Int × World
  | [], ret, fd, w => (ret, fd, w)
  | a :: rest, _ret, _fd, w =>
    -- ctx->fd = socket(...)
    let w1 := w.socket a.sock
    let fd := a.sock
    if fd < 0 then
      -- ret = MBEDTLS_ERR_NET_SOCKET_FAILED; continue;
      connect_loop K timeout_s rest K.MBEDTLS_ERR_NET_SOCKET_FAILED fd w1
    else
      let t := set_timeouts timeout_s a fd w1
      if t.1 then
        let w2 := t.2.log (Call.connect fd)
        if a.conn = 0 then
          -- ret = 0; break;
          (0, fd, w2)
        else
          -- ERR: close(ctx->fd); ret = MBEDTLS_ERR_NET_CONNECT_FAILED;
          connect_loop K timeout_s rest K.MBEDTLS_ERR_NET_CONNECT_FAILED fd (w2.close fd)
      else
        -- goto ERR
        connect_loop K timeout_s rest K.MBEDTLS_ERR_NET_CONNECT_FAILED fd (t.2.close fd)

/-- `mbedtls_net_connect`. The arguments `host`, `port` and `proto` only feed the
resolver, whose answer is `r`. -/
def mbedtls_net_connect (K : Consts) (ctx : mbedtls_net_context) (r : Resolution)
    (w : World) : Outcome :=
  let w0 := w.log Call.getaddrinfo
  if r.rc ≠ 0 then
    { ret := K.MBEDTLS_ERR_NET_UNKNOWN_HOST, ctx := ctx, world := w0 }
  else
    let s := connect_loop K ctx.timeout_s r.addr_list K.MBEDTLS_ERR_NET_UNKNOWN_HOST ctx.fd w0
    { ret := s.1, ctx := { ctx with fd := s.2.1 }, world := s.2.2.log Call.freeaddrinfo }

/-! ## `net_would_block`, `mbedtls_net_recv`, `mbedtls_net_send` -/

/-- Results of the calls made by one `mbedtls_net_recv` or `mbedtls_net_send`:
the value returned by `read`/`write` (already cast to `int`) and the `errno` it
leaves, and the value returned by `lwip_fcntl(fd, F_GETFL, ...)` and the `errno`
that call leaves. -/
structure IoResult where
  ret : Int
  err : Int
  fl : Int
  fl_err : Int
  deriving DecidableEq, Repr

/-- `net_would_block`, on the `errno` found at entry. Returns the result and the
`errno` at exit. `EAGAIN` and `EWOULDBLOCK` are both taken as defined; the second
`case` label exists only when `EWOULDBLOCK != EAGAIN`. -/
def net_would_block (K : Consts) (_ctx : mbedtls_net_context) (io : IoResult)
    (errno : Int) : Int × Int :=
  let err := errno
  -- lwip_fcntl(ctx->fd, F_GETFL, O_NONBLOCK) returns io.fl and leaves errno = io.fl_err
  let _errno := io.fl_err
  if io.fl ≠ K.O_NONBLOCK then
    -- errno = err; return 0;
    (0, err)
  else
    -- switch (errno = err)
    if err = K.EAGAIN then (1, err)
    else if K.EWOULDBLOCK ≠ K.EAGAIN ∧ err = K.EWOULDBLOCK then (1, err)
    else (0, err)

/-- Result of a receive or send: the returned `int`, the context (never written),
the socket layer and the `errno` at return. -/
structure IoOutcome where
  ret : Int
  ctx : mbedtls_net_context
  world : World
  errno : Int
  deriving DecidableEq, Repr

/-- `mbedtls_net_recv`. `errno` is the ambient value at entry. -/
def mbedtls_net_recv (K : Consts) (ctx : mbedtls_net_context) (len : Nat) (io : IoResult)
    (w : World) (errno : Int) : IoOutcome :=
  let fd := ctx.fd
  if fd < 0 then
    { ret := K.MBEDTLS_ERR_NET_INVALID_CONTEXT, ctx := ctx, world := w, errno := errno }
  else
    let w1 := w.log (Call.read fd len)
    let ret := io.ret
    if ret < 0 then
      -- a failed read sets errno
      let wb := net_would_block K ctx io io.err
      let w2 := w1.log (Call.fcntl_getfl fd)
      let errno2 := wb.2
      if wb.1 ≠ 0 then
        { ret := K.MBEDTLS_ERR_SSL_WANT_READ, ctx := ctx, world := w2, errno := errno2 }
      else if errno2 = K.EPIPE ∨ errno2 = K.ECONNRESET then
        { ret := K.MBEDTLS_ERR_NET_CONN_RESET, ctx := ctx, world := w2, errno := errno2 }
      else if errno2 = K.EINTR then
        { ret := K.MBEDTLS_ERR_SSL_WANT_READ, ctx := ctx, world := w2, errno := errno2 }
      else
        { ret := K.MBEDTLS_ERR_NET_RECV_FAILED, ctx := ctx, world := w2, errno := errno2 }
    else
      { ret := ret, ctx := ctx, world := w1, errno := errno }

/-- `mbedtls_net_send`. `errno` is the ambient value at entry. -/
def mbedtls_net_send (K : Consts) (ctx : mbedtls_net_context) (len : Nat) (io : IoResult)
    (w : World) (errno : Int) : IoOutcome :=
  let fd := ctx.fd
  if fd < 0 then
    { ret := K.MBEDTLS_ERR_NET_INVALID_CONTEXT, ctx := ctx, world := w, errno := errno }
  else
    let w1 := w.log (Call.write fd len)
    let ret := io.ret
    if ret < 0 then
      -- a failed write sets errno
      let wb := net_would_block K ctx io io.err
      let w2 := w1.log (Call.fcntl_getfl fd)
      let errno2 := wb.2
      if wb.1 ≠ 0 then
        { ret := K.MBEDTLS_ERR_SSL_WANT_WRITE, ctx := ctx, world := w2, errno := errno2 }
      else if errno2 = K.EPIPE ∨ errno2 = K.ECONNRESET then
        { ret := K.MBEDTLS_ERR_NET_CONN_RESET, ctx := ctx, world := w2, errno := errno2 }
      else if errno2 = K.EINTR then
        { ret := K.MBEDTLS_ERR_SSL_WANT_WRITE, ctx := ctx, world := w2, errno := errno2 }
      else
        { ret := K.MBEDTLS_ERR_NET_SEND_FAILED, ctx := ctx, world := w2, errno := errno2 }
    else
      { ret := ret, ctx := ctx, world := w1, errno := errno }

/-! ## `mbedtls_net_free` -/

/-- `mbedtls_net_free`: nothing when `ctx->fd == -1`; otherwise
`lwip_shutdown(ctx->fd, 2); close(ctx->fd); ctx->fd = -1;`. -/
def mbedtls_net_free (ctx : mbedtls_net_context) (w : World) : mbedtls_net_context × World :=
  if ctx.fd = -1 then (ctx, w)
  else ({ ctx with fd := -1 }, (w.log (Call.shutdown ctx.fd 2)).close ctx.fd)

/-! ## Notions used to state the properties -/

/-- The loop body of `mbedtls_net_connect` reaches `ret = 0; break;` for the
candidate: its socket is created, no `setsockopt` call made for it returns `-1`
(the calls are made only when a timeout is configured) and `connect` returns `0`. -/
def Candidate.connects (timeout_s : Int) (a : Candidate) : Prop :=
  0 ≤ a.sock ∧ (timeout_s ≠ 0 → a.rcvtimeo ≠ -1 ∧ a.sndtimeo ≠ -1) ∧ a.conn = 0

instance (timeout_s : Int) (a : Candidate) : Decidable (a.connects timeout_s) := by
  unfold Candidate.connects; infer_instance

/-- The failure code recorded by the loop body for a candidate that does not
connect. -/
def Candidate.failure (K : Consts) (a : Candidate) : Int :=
  if a.sock < 0 then K.MBEDTLS_ERR_NET_SOCKET_FAILED else K.MBEDTLS_ERR_NET_CONNECT_FAILED

/-- A candidate that accepts a connection in the words of the specification:
a socket can be created for it and `connect` on that socket returns `0`. -/
def Candidate.accepts (a : Candidate) : Prop :=
  0 ≤ a.sock ∧ a.conn = 0

instance (a : Candidate) : Decidable a.accepts := by
  unfold Candidate.accepts; infer_instance

/-- The flag word `fl` has the `O_NONBLOCK` bit set, in the words of the
specification: `(fl & O_NONBLOCK) == O_NONBLOCK`. -/
def has_nonblock_bit (K : Consts) (fl : Int) : Prop :=
  Int.land fl K.O_NONBLOCK = K.O_NONBLOCK

instance (K : Consts) (fl : Int) : Decidable (has_nonblock_bit K fl) := by
  unfold has_nonblock_bit; infer_instance

/-- The renaming that turns a result of receive into the matching result of send:
`MBEDTLS_ERR_SSL_WANT_READ` becomes `MBEDTLS_ERR_SSL_WANT_WRITE`,
`MBEDTLS_ERR_NET_RECV_FAILED` becomes `MBEDTLS_ERR_NET_SEND_FAILED`, everything else
is kept. -/
def recv_to_send (K : Consts) (x : Int) : Int :=
  if x = K.MBEDTLS_ERR_SSL_WANT_READ then K.MBEDTLS_ERR_SSL_WANT_WRITE
  else if x = K.MBEDTLS_ERR_NET_RECV_FAILED then K.MBEDTLS_ERR_NET_SEND_FAILED
  else x

/-- The handle invariant of the data model: the handle is the sentinel `-1` or a
descriptor that is currently open. -/
def handle_ok (ctx : mbedtls_net_context) (w : World) : Prop :=
  ctx.fd = -1 ∨ ctx.fd ∈ w.opened

instance (ctx : mbedtls_net_context) (w : World) : Decidable (handle_ok ctx w) := by
  unfold handle_ok; infer_instance

/-! ## Auxiliary facts about the candidate loop -/

theorem set_timeouts_fst (timeout_s : Int) (a : Candidate) (fd : Int) (w : World) :
    (set_timeouts timeout_s a fd w).1 = true ↔
      (timeout_s ≠ 0 → a.rcvtimeo ≠ -1 ∧ a.sndtimeo ≠ -1) := by
  unfold set_timeouts
  by_cases ht : timeout_s = 0
  · simp [ht]
  · by_cases h1 : a.rcvtimeo = -1
    · simp [ht, h1]
    · by_cases h2 : a.sndtimeo = -1
      · simp [ht, h1, h2]
      · simp [ht, h1, h2]

/-- One iteration of the loop for a candidate that connects: the loop is left
with `ret = 0` and the candidate's socket in `ctx->fd`. -/
theorem connect_loop_cons_connects (K : Consts) (t : Int) (a : Candidate)
    (rest : List Candidate) (ret fd : Int) (w : World) (h : a.connects t) :
    connect_loop K t (a :: rest) ret fd w =
      (0, a.sock, (set_timeouts t a a.sock (w.socket a.sock)).2.log (Call.connect a.sock)) := by
  obtain ⟨h1, h2, h3⟩ := h
  have hs := (set_timeouts_fst t a a.sock (w.socket a.sock)).2 h2
  simp [connect_loop, not_lt.2 h1, hs, h3]

/-- One iteration of the loop for a candidate that does not connect: the loop
goes on with the candidate's failure code in `ret`. -/
theorem connect_loop_cons_fails (K : Consts) (t : Int) (a : Candidate)
    (rest : List Candidate) (ret fd : Int) (w : World) (h : ¬ a.connects t) :
    ∃ w1, connect_loop K t (a :: rest) ret fd w =
      connect_loop K t rest (a.failure K) a.sock w1 := by
  by_cases h1 : a.sock < 0
  · exact ⟨w.socket a.sock, by simp [connect_loop, Candidate.failure, h1]⟩
  · by_cases hs : (set_timeouts t a a.sock (w.socket a.sock)).1 = true
    · have h2 := (set_timeouts_fst t a a.sock (w.socket a.sock)).1 hs
      have h3 : a.conn ≠ 0 := fun h3 => h ⟨not_lt.1 h1, h2, h3⟩
      exact ⟨((set_timeouts t a a.sock (w.socket a.sock)).2.log (Call.connect a.sock)).close
        a.sock, by simp [connect_loop, Candidate.failure, h1, hs, h3]⟩
    · exact ⟨(set_timeouts t a a.sock (w.socket a.sock)).2.close a.sock,
        by simp [connect_loop, Candidate.failure, h1, hs]⟩

/-- The loop leaves `ret = 0` as soon as some candidate connects. -/
theorem connect_loop_ret_of_connects (K : Consts) (t : Int) :
    ∀ (l : List Candidate) (ret fd : Int) (w : World),
      (∃ a ∈ l, a.connects t) → (connect_loop K t l ret fd w).1 = 0
  | [], _, _, _, h => by simp at h
  | a :: rest, ret, fd, w, h => by
    by_cases ha : a.connects t
    · rw [connect_loop_cons_connects K t a rest ret fd w ha]
    · obtain ⟨w1, hw1⟩ := connect_loop_cons_fails K t a rest ret fd w ha
      rw [hw1]
      apply connect_loop_ret_of_connects K t rest
      obtain ⟨b, hb, hbc⟩ := h
      rcases List.mem_cons.1 hb with rfl | hb
      · exact absurd hbc ha
      · exact ⟨b, hb, hbc⟩

/-- When no candidate connects, the loop leaves in `ret` the failure code of the
last candidate, or the initial value of `ret` for an empty list. -/
theorem connect_loop_ret_of_none (K : Consts) (t : Int) :
    ∀ (l : List Candidate) (ret fd : Int) (w : World),
      (∀ a ∈ l, ¬ a.connects t) →
      (connect_loop K t l ret fd w).1 =
        match l.getLast? with
        | none => ret
        | some a => a.failure K
  | [], _, _, _, _ => by simp [connect_loop]
  | [a], ret, fd, w, h => by
    obtain ⟨w1, hw1⟩ := connect_loop_cons_fails K t a [] ret fd w (h a (by simp))
    rw [hw1]
    simp [connect_loop]
  | a :: b :: rest, ret, fd, w, h => by
    obtain ⟨w1, hw1⟩ := connect_loop_cons_fails K t a (b :: rest) ret fd w (h a (by simp))
    rw [hw1, connect_loop_ret_of_none K t (b :: rest) _ _ _
      (fun c hc => h c (List.mem_cons_of_mem _ hc))]
    rw [List.getLast?_cons_cons, List.getLast?_eq_getLast (b :: rest) (by simp)]

/-- The value returned by `mbedtls_net_connect`, by cases. -/
theorem connect_ret_eq (K : Consts) (ctx : mbedtls_net_context) (r : Resolution) (w : World) :
    (mbedtls_net_connect K ctx r w).ret =
      if r.rc ≠ 0 then K.MBEDTLS_ERR_NET_UNKNOWN_HOST
      else if ∃ a ∈ r.addr_list, a.connects ctx.timeout_s then 0
      else match r.addr_list.getLast? with
        | none => K.MBEDTLS_ERR_NET_UNKNOWN_HOST
        | some a => a.failure K := by
  unfold mbedtls_net_connect
  by_cases hrc : r.rc = 0
  · by_cases hc : ∃ a ∈ r.addr_list, a.connects ctx.timeout_s
    · simp only [hrc, ne_eq, not_true_eq_false, if_false, if_pos hc]
      exact connect_loop_ret_of_connects K _ _ _ _ _ hc
    · simp only [hrc, ne_eq, not_true_eq_false, if_false, if_neg hc]
      exact connect_loop_ret_of_none K _ _ _ _ _ (fun a ha hac => hc ⟨a, ha, hac⟩)
  · simp [hrc]

/-! ## Establishing a connection: result code -/

/-- C1, as stated, fails. With a timeout of 5 seconds configured and a single candidate
whose socket is created (descriptor 3), whose first `setsockopt` returns `-1` and whose
`connect` would return `0`, the call returns `MBEDTLS_ERR_NET_CONNECT_FAILED` although
the candidate accepts a connection. -/
theorem connect_iff_accepts_fails :
    (mbedtls_net_connect lwipConsts { fd := -1, timeout_s := 5 }
        { rc := 0, addr_list := [{ sock := 3, rcvtimeo := -1, sndtimeo := 0, conn := 0 }] }
        { opened := [], trace := [] }).ret = -68 ∧
    (∃ a ∈ [({ sock := 3, rcvtimeo := -1, sndtimeo := 0, conn := 0 } : Candidate)], a.accepts) ∧
    ¬ ((mbedtls_net_connect lwipConsts { fd := -1, timeout_s := 5 }
        { rc := 0, addr_list := [{ sock := 3, rcvtimeo := -1, sndtimeo := 0, conn := 0 }] }
        { opened := [], trace := [] }).ret = 0 ↔
      ∃ a ∈ [({ sock := 3, rcvtimeo := -1, sndtimeo := 0, conn := 0 } : Candidate)],
        a.accepts) := by
  decide

/-- C1 (amended): for a resolved, non-empty candidate list, any timeout and any outcome
of the socket, setsockopt and connect calls, `mbedtls_net_connect` returns `0` if and
only if some candidate connects: its socket is created, no `setsockopt` call made for
it returns `-1` (they are made only when `timeout_s != 0`) and `connect` returns `0`.
The two failure codes of the loop are assumed non-zero. -/
theorem connect_succeeds_iff (K : Consts) (ctx : mbedtls_net_context) (r : Resolution)
    (w : World) (hrc : r.rc = 0) (hne : r.addr_list ≠ [])
    (hS : K.MBEDTLS_ERR_NET_SOCKET_FAILED ≠ 0)
    (hC : K.MBEDTLS_ERR_NET_CONNECT_FAILED ≠ 0) :
    (mbedtls_net_connect K ctx r w).ret = 0 ↔
      ∃ a ∈ r.addr_list, a.connects ctx.timeout_s := by
  rw [connect_ret_eq]
  by_cases hc : ∃ a ∈ r.addr_list, a.connects ctx.timeout_s
  · simp [hrc, hc]
  · simp only [hrc, ne_eq, not_true_eq_false, if_false, if_neg hc]
    rw [List.getLast?_eq_getLast r.addr_list hne]
    simp only [Candidate.failure]
    split
    · exact iff_of_false hS hc
    · exact iff_of_false hC hc

/-- Instance of `connect_succeeds_iff`: timeout configured, first candidate rejected by
`setsockopt`, second candidate connects. -/
theorem connect_succeeds_iff_witness :
    (mbedtls_net_connect lwipConsts { fd := -1, timeout_s := 5 }
        { rc := 0, addr_list := [{ sock := 3, rcvtimeo := -1, sndtimeo := 0, conn := 0 },
                                 { sock := 4, rcvtimeo := 0, sndtimeo := 0, conn := 0 }] }
        { opened := [], trace := [] }).ret = 0 ↔
      ∃ a ∈ [({ sock := 3, rcvtimeo := -1, sndtimeo := 0, conn := 0 } : Candidate),
             { sock := 4, rcvtimeo := 0, sndtimeo := 0, conn := 0 }],
        a.connects 5 :=
  connect_succeeds_iff lwipConsts { fd := -1, timeout_s := 5 }
    { rc := 0, addr_list := [{ sock := 3, rcvtimeo := -1, sndtimeo := 0, conn := 0 },
                             { sock := 4, rcvtimeo := 0, sndtimeo := 0, conn := 0 }] }
    { opened := [], trace := [] } rfl (by simp) (by decide) (by decide)

/-- C2: when `mbedtls_net_connect` does not return `0`, the returned code is
`MBEDTLS_ERR_NET_UNKNOWN_HOST` if resolution failed or gave an empty list, and otherwise
is decided by the last candidate alone: `MBEDTLS_ERR_NET_SOCKET_FAILED` if its socket
was not created, `MBEDTLS_ERR_NET_CONNECT_FAILED` if its socket was created (the
candidate then did not connect). Two failing calls on resolved lists with the same last
candidate return the same code. -/
theorem connect_failure_is_last (K : Consts) (ctx : mbedtls_net_context) (r : Resolution)
    (w : World) (hfail : (mbedtls_net_connect K ctx r w).ret ≠ 0) :
    ((r.rc ≠ 0 ∨ r.addr_list = []) →
      (mbedtls_net_connect K ctx r w).ret = K.MBEDTLS_ERR_NET_UNKNOWN_HOST) ∧
    (r.rc = 0 → ∀ a, r.addr_list.getLast? = some a →
      (a.sock < 0 →
        (mbedtls_net_connect K ctx r w).ret = K.MBEDTLS_ERR_NET_SOCKET_FAILED) ∧
      (0 ≤ a.sock →
        ¬ a.connects ctx.timeout_s ∧
        (mbedtls_net_connect K ctx r w).ret = K.MBEDTLS_ERR_NET_CONNECT_FAILED)) ∧
    (∀ (ctx2 : mbedtls_net_context) (r2 : Resolution) (w2 : World),
      r.rc = 0 → r2.rc = 0 → r2.addr_list.getLast? = r.addr_list.getLast? →
      (mbedtls_net_connect K ctx2 r2 w2).ret ≠ 0 →
      (mbedtls_net_connect K ctx2 r2 w2).ret = (mbedtls_net_connect K ctx r w).ret) := by
  have key : ∀ (c : mbedtls_net_context) (q : Resolution) (v : World),
      q.rc = 0 → (mbedtls_net_connect K c q v).ret ≠ 0 →
      (¬ ∃ a ∈ q.addr_list, a.connects c.timeout_s) ∧
      (mbedtls_net_connect K c q v).ret =
        match q.addr_list.getLast? with
        | none => K.MBEDTLS_ERR_NET_UNKNOWN_HOST
        | some a => a.failure K := by
    intro c q v hq hf
    rw [connect_ret_eq] at hf ⊢
    by_cases hc : ∃ a ∈ q.addr_list, a.connects c.timeout_s
    · simp [hq, hc] at hf
    · exact ⟨hc, by simp only [hq, ne_eq, not_true_eq_false, if_false, if_neg hc]⟩
  refine ⟨?_, ?_, ?_⟩
  · rintro (h | h)
    · rw [connect_ret_eq]; simp [h]
    · by_cases hrc : r.rc = 0
      · rw [(key ctx r w hrc hfail).2, h]; rfl
      · rw [connect_ret_eq]; simp [hrc]
  · intro hrc a ha
    obtain ⟨hnone, hret⟩ := key ctx r w hrc hfail
    rw [ha] at hret
    refine ⟨fun hlt => ?_, fun hge => ⟨?_, ?_⟩⟩
    · rw [hret]; simp [Candidate.failure, hlt]
    · exact fun hac => hnone ⟨a, List.mem_of_mem_getLast? ha, hac⟩
    · rw [hret]; simp [Candidate.failure, not_lt.2 hge]
  · intro ctx2 r2 w2 hrc hrc2 hlast hfail2
    rw [(key ctx r w hrc hfail).2, (key ctx2 r2 w2 hrc2 hfail2).2, hlast]

/-- Instance of `connect_failure_is_last`: the first candidate fails in `connect`, the
last one in `socket`; the call returns `MBEDTLS_ERR_NET_SOCKET_FAILED` (`-66`). -/
theorem connect_failure_is_last_witness :
    (mbedtls_net_connect lwipConsts { fd := -1, timeout_s := 0 }
        { rc := 0, addr_list := [{ sock := 3, rcvtimeo := 0, sndtimeo := 0, conn := -1 },
                                 { sock := -1, rcvtimeo := 0, sndtimeo := 0, conn := 0 }] }
        { opened := [], trace := [] }).ret = -66 :=
  ((connect_failure_is_last lwipConsts { fd := -1, timeout_s := 0 }
      { rc := 0, addr_list := [{ sock := 3, rcvtimeo := 0, sndtimeo := 0, conn := -1 },
                               { sock := -1, rcvtimeo := 0, sndtimeo := 0, conn := 0 }] }
      { opened := [], trace := [] } (by decide)).2.1 rfl
      { sock := -1, rcvtimeo := 0, sndtimeo := 0, conn := 0 } rfl).1 (by decide)

/-! ## Auxiliary facts about receive, send and the would-block helper -/

theorem land_self_eq (x : Int) : Int.land x x = x := by
  cases x with
  | ofNat m => simp [Int.land]
  | negSucc m => simp [Int.land]

/-- The helper answers `0` whenever the flag query does not return exactly
`O_NONBLOCK`. -/
theorem net_would_block_of_ne (K : Consts) (ctx : mbedtls_net_context) (io : IoResult)
    (e : Int) (h : io.fl ≠ K.O_NONBLOCK) : net_would_block K ctx io e = (0, e) := by
  simp [net_would_block, h]

/-- The helper hands back the `errno` it found at entry, whatever `lwip_fcntl` left. -/
theorem net_would_block_errno (K : Consts) (ctx : mbedtls_net_context) (io : IoResult)
    (e : Int) : (net_would_block K ctx io e).2 = e := by
  simp only [net_would_block]
  split_ifs <;> rfl

/-- The helper answers non-zero exactly when the flag query returns `O_NONBLOCK` and
the error code is `EAGAIN` or `EWOULDBLOCK`. -/
theorem net_would_block_ne_zero_iff (K : Consts) (ctx : mbedtls_net_context)
    (io : IoResult) (e : Int) :
    (net_would_block K ctx io e).1 ≠ 0 ↔
      (io.fl = K.O_NONBLOCK ∧ (e = K.EAGAIN ∨ e = K.EWOULDBLOCK)) := by
  unfold net_would_block
  by_cases hfl : io.fl = K.O_NONBLOCK
  · by_cases h1 : e = K.EAGAIN
    · simp [hfl, h1]
    · by_cases h2 : e = K.EWOULDBLOCK
      · have h3 : K.EWOULDBLOCK ≠ K.EAGAIN := fun h => h1 (h2.trans h)
        simp [hfl, h1, h2, h3]
      · simp [hfl, h1, h2]
  · simp [hfl]

/-- Receive on a handle `< 0`: `MBEDTLS_ERR_NET_INVALID_CONTEXT`, nothing else happens. -/
theorem recv_of_neg (K : Consts) (ctx : mbedtls_net_context) (len : Nat) (io : IoResult)
    (w : World) (errno : Int) (h : ctx.fd < 0) :
    mbedtls_net_recv K ctx len io w errno =
      { ret := K.MBEDTLS_ERR_NET_INVALID_CONTEXT, ctx := ctx, world := w, errno := errno } := by
  simp [mbedtls_net_recv, h]

/-- Send on a handle `< 0`: `MBEDTLS_ERR_NET_INVALID_CONTEXT`, nothing else happens. -/
theorem send_of_neg (K : Consts) (ctx : mbedtls_net_context) (len : Nat) (io : IoResult)
    (w : World) (errno : Int) (h : ctx.fd < 0) :
    mbedtls_net_send K ctx len io w errno =
      { ret := K.MBEDTLS_ERR_NET_INVALID_CONTEXT, ctx := ctx, world := w, errno := errno } := by
  simp [mbedtls_net_send, h]

/-- The value returned by receive on a handle `≥ 0`, by cases. -/
theorem recv_ret_eq (K : Consts) (ctx : mbedtls_net_context) (len : Nat) (io : IoResult)
    (w : World) (errno : Int) (hfd : 0 ≤ ctx.fd) :
    (mbedtls_net_recv K ctx len io w errno).ret =
      if 0 ≤ io.ret then io.ret
      else if io.fl = K.O_NONBLOCK ∧ (io.err = K.EAGAIN ∨ io.err = K.EWOULDBLOCK) then
        K.MBEDTLS_ERR_SSL_WANT_READ
      else if io.err = K.EPIPE ∨ io.err = K.ECONNRESET then K.MBEDTLS_ERR_NET_CONN_RESET
      else if io.err = K.EINTR then K.MBEDTLS_ERR_SSL_WANT_READ
      else K.MBEDTLS_ERR_NET_RECV_FAILED := by
  have hwb := net_would_block_ne_zero_iff K ctx io io.err
  have he := net_would_block_errno K ctx io io.err
  unfold mbedtls_net_recv
  simp only [not_lt.2 hfd, if_false]
  by_cases hr : 0 ≤ io.ret
  · simp [hr, not_lt.2 hr]
  · simp only [hr, not_le.1 hr, if_true, if_false, he]
    by_cases hb : (net_would_block K ctx io io.err).1 ≠ 0
    · rw [if_pos hb, if_pos (hwb.1 hb)]
    · rw [if_neg hb, if_neg (fun h => hb (hwb.2 h))]
      split
      · rfl
      · split <;> rfl

/-- The value returned by send on a handle `≥ 0`, by cases. -/
theorem send_ret_eq (K : Consts) (ctx : mbedtls_net_context) (len : Nat) (io : IoResult)
    (w : World) (errno : Int) (hfd : 0 ≤ ctx.fd) :
    (mbedtls_net_send K ctx len io w errno).ret =
      if 0 ≤ io.ret then io.ret
      else if io.fl = K.O_NONBLOCK ∧ (io.err = K.EAGAIN ∨ io.err = K.EWOULDBLOCK) then
        K.MBEDTLS_ERR_SSL_WANT_WRITE
      else if io.err = K.EPIPE ∨ io.err = K.ECONNRESET then K.MBEDTLS_ERR_NET_CONN_RESET
      else if io.err = K.EINTR then K.MBEDTLS_ERR_SSL_WANT_WRITE
      else K.MBEDTLS_ERR_NET_SEND_FAILED := by
  have hwb := net_would_block_ne_zero_iff K ctx io io.err
  have he := net_would_block_errno K ctx io io.err
  unfold mbedtls_net_send
  simp only [not_lt.2 hfd, if_false]
  by_cases hr : 0 ≤ io.ret
  · simp [hr, not_lt.2 hr]
  · simp only [hr, not_le.1 hr, if_true, if_false, he]
    by_cases hb : (net_would_block K ctx io io.err).1 ≠ 0
    · rw [if_pos hb, if_pos (hwb.1 hb)]
    · rw [if_neg hb, if_neg (fun h => hb (hwb.2 h))]
      split
      · rfl
      · split <;> rfl

/-- Receive never writes the context. -/
theorem recv_ctx (K : Consts) (ctx : mbedtls_net_context) (len : Nat) (io : IoResult)
    (w : World) (errno : Int) : (mbedtls_net_recv K ctx len io w errno).ctx = ctx := by
  unfold mbedtls_net_recv
  simp only []
  repeat (first | rfl | split)

/-- After a failed read the `errno` at return is the one the read left. -/
theorem recv_errno (K : Consts) (ctx : mbedtls_net_context) (len : Nat) (io : IoResult)
    (w : World) (errno : Int) (hfd : 0 ≤ ctx.fd) (hr : io.ret < 0) :
    (mbedtls_net_recv K ctx len io w errno).errno = io.err := by
  have he := net_would_block_errno K ctx io io.err
  unfold mbedtls_net_recv
  simp only [not_lt.2 hfd, if_false, hr, if_true, he]
  repeat (first | rfl | split)

/-! ## Closing -/

/-- C4: `mbedtls_net_free` on the sentinel handle issues no call and changes nothing;
on any other handle it issues exactly `lwip_shutdown(fd, 2)` followed by `close(fd)`,
sets the handle to `-1` and keeps the timeout. Running it a second time gives the same
context and the same socket layer (trace included) as running it once. -/
theorem free_idempotent (ctx : mbedtls_net_context) (w : World) :
    (ctx.fd = -1 → mbedtls_net_free ctx w = (ctx, w)) ∧
    (ctx.fd ≠ -1 →
      (mbedtls_net_free ctx w).2.trace =
        w.trace ++ [Call.shutdown ctx.fd 2, Call.close ctx.fd] ∧
      (mbedtls_net_free ctx w).1.fd = -1 ∧
      (mbedtls_net_free ctx w).1.timeout_s = ctx.timeout_s) ∧
    mbedtls_net_free (mbedtls_net_free ctx w).1 (mbedtls_net_free ctx w).2 =
      mbedtls_net_free ctx w := by
  by_cases h : ctx.fd = -1
  · simp [mbedtls_net_free, h]
  · simp [mbedtls_net_free, h, World.log, World.close]

/-- Instance of `free_idempotent` on the open handle 3 with a timeout of 7 seconds. -/
theorem free_idempotent_witness :
    (mbedtls_net_free { fd := 3, timeout_s := 7 } { opened := [3], trace := [] }).2.trace =
        [] ++ [Call.shutdown 3 2, Call.close 3] ∧
      (mbedtls_net_free { fd := 3, timeout_s := 7 } { opened := [3], trace := [] }).1.fd = -1 ∧
      (mbedtls_net_free { fd := 3, timeout_s := 7 }
        { opened := [3], trace := [] }).1.timeout_s = 7 :=
  (free_idempotent { fd := 3, timeout_s := 7 } { opened := [3], trace := [] }).2.1 (by decide)

/-! ## Receive and send -/

/-- C5: on a context whose handle is unset (handle `-1`; the context made by
`mbedtls_net_init`; the context left by `mbedtls_net_free`), receive and send return
`MBEDTLS_ERR_NET_INVALID_CONTEXT` and leave the socket layer untouched: no call is
issued. -/
theorem io_on_unset_handle (K : Consts) (ctx c0 : mbedtls_net_context) (w0 : World)
    (len : Nat) (io : IoResult) (w : World) (errno : Int)
    (h : ctx.fd = -1 ∨ ctx = mbedtls_net_init c0 ∨ ctx = (mbedtls_net_free c0 w0).1) :
    (mbedtls_net_recv K ctx len io w errno).ret = K.MBEDTLS_ERR_NET_INVALID_CONTEXT ∧
    (mbedtls_net_recv K ctx len io w errno).world = w ∧
    (mbedtls_net_send K ctx len io w errno).ret = K.MBEDTLS_ERR_NET_INVALID_CONTEXT ∧
    (mbedtls_net_send K ctx len io w errno).world = w := by
  have hfd : ctx.fd < 0 := by
    rcases h with h | h | h
    · rw [h]; decide
    · rw [h]; simp [mbedtls_net_init]
    · rw [h]
      unfold mbedtls_net_free
      split
      · rename_i h1
        simp only [h1]; decide
      · simp
  rw [recv_of_neg K ctx len io w errno hfd, send_of_neg K ctx len io w errno hfd]
  exact ⟨rfl, rfl, rfl, rfl⟩

/-- Instance of `io_on_unset_handle`: send right after closing the open handle 3. -/
theorem io_on_unset_handle_witness :
    (mbedtls_net_send lwipConsts
        (mbedtls_net_free { fd := 3, timeout_s := 0 } { opened := [3], trace := [] }).1 8
        { ret := 8, err := 0, fl := 0, fl_err := 0 }
        (mbedtls_net_free { fd := 3, timeout_s := 0 } { opened := [3], trace := [] }).2 0).ret
      = -69 :=
  (io_on_unset_handle lwipConsts
    (mbedtls_net_free { fd := 3, timeout_s := 0 } { opened := [3], trace := [] }).1
    { fd := 3, timeout_s := 0 } { opened := [3], trace := [] } 8
    { ret := 8, err := 0, fl := 0, fl_err := 0 }
    (mbedtls_net_free { fd := 3, timeout_s := 0 } { opened := [3], trace := [] }).2 0
    (Or.inr (Or.inr rfl))).2.2.1

/-- What receive does on a set handle, by cases: a non-negative read result is
returned unchanged; on a negative read result the error code `io.err` left by the read
is classified in this order: the flag query answers exactly `O_NONBLOCK` and the code
is `EAGAIN` or `EWOULDBLOCK` gives `MBEDTLS_ERR_SSL_WANT_READ`; else `EPIPE` or
`ECONNRESET` gives `MBEDTLS_ERR_NET_CONN_RESET`; else `EINTR` gives
`MBEDTLS_ERR_SSL_WANT_READ`; else `MBEDTLS_ERR_NET_RECV_FAILED`. The `errno` at return
is the one left by the read, the whole outcome is the same whatever `errno` the call of
`lwip_fcntl` leaves (`io.fl_err`), and the context is unchanged. -/
theorem recv_classification (K : Consts) (ctx : mbedtls_net_context) (len : Nat)
    (io : IoResult) (w : World) (errno : Int) (hfd : 0 ≤ ctx.fd) :
    (0 ≤ io.ret → (mbedtls_net_recv K ctx len io w errno).ret = io.ret) ∧
    (io.ret < 0 →
      (mbedtls_net_recv K ctx len io w errno).ret =
        (if io.fl = K.O_NONBLOCK ∧ (io.err = K.EAGAIN ∨ io.err = K.EWOULDBLOCK) then
          K.MBEDTLS_ERR_SSL_WANT_READ
        else if io.err = K.EPIPE ∨ io.err = K.ECONNRESET then K.MBEDTLS_ERR_NET_CONN_RESET
        else if io.err = K.EINTR then K.MBEDTLS_ERR_SSL_WANT_READ
        else K.MBEDTLS_ERR_NET_RECV_FAILED) ∧
      (mbedtls_net_recv K ctx len io w errno).errno = io.err) ∧
    (∀ fe, mbedtls_net_recv K ctx len { io with fl_err := fe } w errno =
      mbedtls_net_recv K ctx len io w errno) ∧
    (mbedtls_net_recv K ctx len io w errno).ctx = ctx := by
  refine ⟨fun h => ?_, fun h => ⟨?_, recv_errno K ctx len io w errno hfd h⟩, fun fe => ?_,
    recv_ctx K ctx len io w errno⟩
  · rw [recv_ret_eq K ctx len io w errno hfd, if_pos h]
  · rw [recv_ret_eq K ctx len io w errno hfd, if_neg (not_le.2 h)]
  · simp [mbedtls_net_recv, net_would_block]

/-- Instance of `recv_classification`: the read on handle 3 fails with `ECONNRESET`
(104) while `lwip_fcntl` leaves `errno = 9`; receive returns
`MBEDTLS_ERR_NET_CONN_RESET` (`-80`) and the handle is still 3. -/
theorem recv_classification_witness :
    (mbedtls_net_recv lwipConsts { fd := 3, timeout_s := 0 } 16
        { ret := -1, err := 104, fl := 1, fl_err := 9 } { opened := [3], trace := [] } 0).ret
      = -80 ∧
    (mbedtls_net_recv lwipConsts { fd := 3, timeout_s := 0 } 16
        { ret := -1, err := 104, fl := 1, fl_err := 9 } { opened := [3], trace := [] } 0).errno
      = 104 ∧
    (mbedtls_net_recv lwipConsts { fd := 3, timeout_s := 0 } 16
        { ret := -1, err := 104, fl := 1, fl_err := 9 } { opened := [3], trace := [] } 0).ctx.fd
      = 3 :=
  have h := recv_classification lwipConsts { fd := 3, timeout_s := 0 } 16
    { ret := -1, err := 104, fl := 1, fl_err := 9 } { opened := [3], trace := [] } 0
    (by decide)
  ⟨(h.2.1 (by decide)).1, (h.2.1 (by decide)).2, congrArg mbedtls_net_context.fd h.2.2.2⟩

/-- C6, evaluated where it fails: handle 4 is non-blocking and its flag query answers 7
(`O_NONBLOCK = 1` together with access-mode bits, so the `O_NONBLOCK` bit is set) while
leaving `errno = 9`; the read returned `-1` with `errno = EAGAIN` (11), a would-block on
a non-blocking handle. Receive returns `MBEDTLS_ERR_NET_RECV_FAILED` (`-76`), the last
case of the classification, not `MBEDTLS_ERR_SSL_WANT_READ` (`-26880`), its first
case. The error code of the read is still the `errno` at return and the handle is still
4: only the would-block test is missed, because the helper compares the whole flag
word with `O_NONBLOCK`. -/
theorem recv_would_block_misclassified :
    has_nonblock_bit lwipConsts 7 ∧
    (mbedtls_net_recv lwipConsts { fd := 4, timeout_s := 0 } 32
        { ret := -1, err := 11, fl := 7, fl_err := 9 } { opened := [4], trace := [] } 0) =
      { ret := -76, ctx := { fd := 4, timeout_s := 0 },
        world := { opened := [4], trace := [Call.read 4 32, Call.fcntl_getfl 4] },
        errno := 11 } ∧
    lwipConsts.MBEDTLS_ERR_NET_RECV_FAILED = -76 ∧
    lwipConsts.MBEDTLS_ERR_SSL_WANT_READ = -26880 ∧
    (11 = lwipConsts.EAGAIN ∨ 11 = lwipConsts.EWOULDBLOCK) := by
  decide

/-- C7, evaluated where it fails: handle 3 is non-blocking and its flag word is 7
(`O_NONBLOCK = 1` together with access-mode bits, so the `O_NONBLOCK` bit is set);
`read` and `write` return `-1` with `errno = EAGAIN` (11). Receive returns
`MBEDTLS_ERR_NET_RECV_FAILED` (`-76`) and send returns `MBEDTLS_ERR_NET_SEND_FAILED`
(`-78`), not `MBEDTLS_ERR_SSL_WANT_READ` / `MBEDTLS_ERR_SSL_WANT_WRITE`: the helper
compares the whole flag word with `O_NONBLOCK`. -/
theorem nonblocking_extra_flags_hard_failure :
    has_nonblock_bit lwipConsts 7 ∧
    (net_would_block lwipConsts { fd := 3, timeout_s := 0 }
        { ret := -1, err := 11, fl := 7, fl_err := 0 } 11).1 = 0 ∧
    (mbedtls_net_recv lwipConsts { fd := 3, timeout_s := 0 } 16
        { ret := -1, err := 11, fl := 7, fl_err := 0 } { opened := [3], trace := [] } 0).ret
      = lwipConsts.MBEDTLS_ERR_NET_RECV_FAILED ∧
    (mbedtls_net_send lwipConsts { fd := 3, timeout_s := 0 } 16
        { ret := -1, err := 11, fl := 7, fl_err := 0 } { opened := [3], trace := [] } 0).ret
      = lwipConsts.MBEDTLS_ERR_NET_SEND_FAILED ∧
    lwipConsts.MBEDTLS_ERR_NET_RECV_FAILED ≠ lwipConsts.MBEDTLS_ERR_SSL_WANT_READ ∧
    lwipConsts.MBEDTLS_ERR_NET_SEND_FAILED ≠ lwipConsts.MBEDTLS_ERR_SSL_WANT_WRITE := by
  decide

/-- C8: when the flag query answers a word without the `O_NONBLOCK` bit, or answers
its error value `-1`, `net_would_block` returns `0` for every error code; a negative
read or write with error code `EAGAIN` is then reported as
`MBEDTLS_ERR_NET_RECV_FAILED` / `MBEDTLS_ERR_NET_SEND_FAILED`, not as
`MBEDTLS_ERR_SSL_WANT_READ` / `MBEDTLS_ERR_SSL_WANT_WRITE`. Assumed of the constants:
`O_NONBLOCK` is not `-1`, `EAGAIN` differs from `EPIPE`, `ECONNRESET` and `EINTR`, and
the hard-failure codes differ from the want codes. -/
theorem would_block_on_blocking_handle (K : Consts) (ctx : mbedtls_net_context)
    (len : Nat) (io : IoResult) (w : World) (errno e : Int)
    (hfl : ¬ has_nonblock_bit K io.fl ∨ io.fl = -1)
    (hO : K.O_NONBLOCK ≠ -1)
    (hP : K.EAGAIN ≠ K.EPIPE) (hC : K.EAGAIN ≠ K.ECONNRESET) (hI : K.EAGAIN ≠ K.EINTR)
    (hR : K.MBEDTLS_ERR_NET_RECV_FAILED ≠ K.MBEDTLS_ERR_SSL_WANT_READ)
    (hS : K.MBEDTLS_ERR_NET_SEND_FAILED ≠ K.MBEDTLS_ERR_SSL_WANT_WRITE) :
    (net_would_block K ctx io e).1 = 0 ∧
    (0 ≤ ctx.fd → io.ret < 0 → io.err = K.EAGAIN →
      (mbedtls_net_recv K ctx len io w errno).ret = K.MBEDTLS_ERR_NET_RECV_FAILED ∧
      (mbedtls_net_recv K ctx len io w errno).ret ≠ K.MBEDTLS_ERR_SSL_WANT_READ ∧
      (mbedtls_net_send K ctx len io w errno).ret = K.MBEDTLS_ERR_NET_SEND_FAILED ∧
      (mbedtls_net_send K ctx len io w errno).ret ≠ K.MBEDTLS_ERR_SSL_WANT_WRITE) := by
  have hne : io.fl ≠ K.O_NONBLOCK := by
    rcases hfl with h | h
    · intro heq
      apply h
      unfold has_nonblock_bit
      rw [heq]
      exact land_self_eq _
    · rw [h]; exact fun heq => hO heq.symm
  refine ⟨by rw [net_would_block_of_ne K ctx io e hne], fun hfd hr herr => ?_⟩
  have hrecv : (mbedtls_net_recv K ctx len io w errno).ret = K.MBEDTLS_ERR_NET_RECV_FAILED := by
    rw [recv_ret_eq K ctx len io w errno hfd]
    simp [not_le.2 hr, hne, herr, hP, hC, hI]
  have hsend : (mbedtls_net_send K ctx len io w errno).ret = K.MBEDTLS_ERR_NET_SEND_FAILED := by
    rw [send_ret_eq K ctx len io w errno hfd]
    simp [not_le.2 hr, hne, herr, hP, hC, hI]
  exact ⟨hrecv, by rw [hrecv]; exact hR, hsend, by rw [hsend]; exact hS⟩

/-- Instance of `would_block_on_blocking_handle`: flag word 6 (access-mode bits only),
failed read with `EAGAIN` on handle 3. -/
theorem would_block_on_blocking_handle_witness :
    (net_would_block lwipConsts { fd := 3, timeout_s := 0 }
        { ret := -1, err := 11, fl := 6, fl_err := 0 } 11).1 = 0 ∧
    (mbedtls_net_recv lwipConsts { fd := 3, timeout_s := 0 } 16
        { ret := -1, err := 11, fl := 6, fl_err := 0 } { opened := [3], trace := [] } 0).ret
      = -76 :=
  have h := would_block_on_blocking_handle lwipConsts { fd := 3, timeout_s := 0 } 16
    { ret := -1, err := 11, fl := 6, fl_err := 0 } { opened := [3], trace := [] } 0 11
    (Or.inl (by decide)) (by decide) (by decide) (by decide) (by decide) (by decide)
    (by decide)
  ⟨h.1, (h.2 (by decide) (by decide) rfl).1⟩

/-- C9: send mirrors receive. On the same context and the same results of the
underlying calls, the value returned by `mbedtls_net_send` is the value returned by
`mbedtls_net_recv` with `MBEDTLS_ERR_SSL_WANT_READ` renamed to
`MBEDTLS_ERR_SSL_WANT_WRITE` and `MBEDTLS_ERR_NET_RECV_FAILED` renamed to
`MBEDTLS_ERR_NET_SEND_FAILED`. Assumed of the constants: the two renamed codes are
negative, differ from each other and from `MBEDTLS_ERR_NET_INVALID_CONTEXT` and
`MBEDTLS_ERR_NET_CONN_RESET`. -/
theorem send_mirrors_recv (K : Consts) (ctx : mbedtls_net_context) (len : Nat)
    (io : IoResult) (w : World) (errno : Int)
    (hWR : K.MBEDTLS_ERR_SSL_WANT_READ < 0) (hRF : K.MBEDTLS_ERR_NET_RECV_FAILED < 0)
    (h1 : K.MBEDTLS_ERR_NET_INVALID_CONTEXT ≠ K.MBEDTLS_ERR_SSL_WANT_READ)
    (h2 : K.MBEDTLS_ERR_NET_INVALID_CONTEXT ≠ K.MBEDTLS_ERR_NET_RECV_FAILED)
    (h3 : K.MBEDTLS_ERR_NET_CONN_RESET ≠ K.MBEDTLS_ERR_SSL_WANT_READ)
    (h4 : K.MBEDTLS_ERR_NET_CONN_RESET ≠ K.MBEDTLS_ERR_NET_RECV_FAILED)
    (h5 : K.MBEDTLS_ERR_NET_RECV_FAILED ≠ K.MBEDTLS_ERR_SSL_WANT_READ) :
    (mbedtls_net_send K ctx len io w errno).ret =
      recv_to_send K (mbedtls_net_recv K ctx len io w errno).ret := by
  by_cases hfd : ctx.fd < 0
  · rw [recv_of_neg K ctx len io w errno hfd, send_of_neg K ctx len io w errno hfd]
    simp [recv_to_send, h1, h2]
  · rw [recv_ret_eq K ctx len io w errno (not_lt.1 hfd),
      send_ret_eq K ctx len io w errno (not_lt.1 hfd)]
    by_cases hr : 0 ≤ io.ret
    · have e1 : io.ret ≠ K.MBEDTLS_ERR_SSL_WANT_READ := by omega
      have e2 : io.ret ≠ K.MBEDTLS_ERR_NET_RECV_FAILED := by omega
      simp [hr, recv_to_send, e1, e2]
    · simp only [hr, if_false]
      split_ifs <;> simp [recv_to_send, h3, h4, h5]

/-- Instance of `send_mirrors_recv`: failed call with `EINTR` (4) on handle 3; receive
gives `MBEDTLS_ERR_SSL_WANT_READ`, send gives `MBEDTLS_ERR_SSL_WANT_WRITE`. -/
theorem send_mirrors_recv_witness :
    (mbedtls_net_send lwipConsts { fd := 3, timeout_s := 0 } 16
        { ret := -1, err := 4, fl := 0, fl_err := 0 } { opened := [3], trace := [] } 0).ret =
      recv_to_send lwipConsts
        (mbedtls_net_recv lwipConsts { fd := 3, timeout_s := 0 } 16
          { ret := -1, err := 4, fl := 0, fl_err := 0 } { opened := [3], trace := [] } 0).ret :=
  send_mirrors_recv lwipConsts { fd := 3, timeout_s := 0 } 16
    { ret := -1, err := 4, fl := 0, fl_err := 0 } { opened := [3], trace := [] } 0
    (by decide) (by decide) (by decide) (by decide) (by decide) (by decide) (by decide)

/-! ## The handle invariant -/

/-- C3, evaluated where it fails: starting from `mbedtls_net_init` with nothing open,
one candidate whose socket is created (descriptor 3) and whose `connect` returns `-1`.
`mbedtls_net_connect` returns `MBEDTLS_ERR_NET_CONNECT_FAILED` (`-68`) after closing
descriptor 3 (nothing is open afterwards) but leaves `ctx->fd = 3`, so the handle
invariant, which held before the call, no longer holds; `mbedtls_net_free` then shuts
down and closes descriptor 3 a second time. -/
theorem connect_failure_leaves_closed_handle :
    handle_ok (mbedtls_net_init { fd := 0, timeout_s := 0 }) { opened := [], trace := [] } ∧
    (mbedtls_net_connect lwipConsts (mbedtls_net_init { fd := 0, timeout_s := 0 })
        { rc := 0, addr_list := [{ sock := 3, rcvtimeo := 0, sndtimeo := 0, conn := -1 }] }
        { opened := [], trace := [] }) =
      { ret := -68, ctx := { fd := 3, timeout_s := 0 },
        world := { opened := [],
                   trace := [Call.getaddrinfo, Call.socket 3, Call.connect 3, Call.close 3,
                             Call.freeaddrinfo] } } ∧
    ¬ handle_ok { fd := 3, timeout_s := 0 }
        { opened := [],
          trace := [Call.getaddrinfo, Call.socket 3, Call.connect 3, Call.close 3,
                    Call.freeaddrinfo] } ∧
    (mbedtls_net_free { fd := 3, timeout_s := 0 }
        { opened := [],
          trace := [Call.getaddrinfo, Call.socket 3, Call.connect 3, Call.close 3,
                    Call.freeaddrinfo] }).2.trace =
      [Call.getaddrinfo, Call.socket 3, Call.connect 3, Call.close 3, Call.freeaddrinfo,
       Call.shutdown 3 2, Call.close 3] := by
  decide

/-! ## Sockets opened and closed by the candidate loop -/

/-- The timeout block only issues `setsockopt` calls and leaves the set of open
descriptors alone. -/
theorem set_timeouts_world (t : Int) (a : Candidate) (fd : Int) (w : World) :
    ∃ T, (set_timeouts t a fd w).2 = { opened := w.opened, trace := w.trace ++ T } ∧
      ∀ d, Call.socket d ∉ T ∧ Call.close d ∉ T := by
  unfold set_timeouts
  by_cases ht : t = 0
  · exact ⟨[], by simp [ht], by simp⟩
  · by_cases h1 : a.rcvtimeo = -1
    · exact ⟨[Call.setsockopt fd SockOpt.SO_RCVTIMEO t], by simp [ht, h1, World.log],
        by simp⟩
    · by_cases h2 : a.sndtimeo = -1
      · exact ⟨[Call.setsockopt fd SockOpt.SO_RCVTIMEO t,
          Call.setsockopt fd SockOpt.SO_SNDTIMEO t], by simp [ht, h1, h2, World.log], by simp⟩
      · exact ⟨[Call.setsockopt fd SockOpt.SO_RCVTIMEO t,
          Call.setsockopt fd SockOpt.SO_SNDTIMEO t], by simp [ht, h1, h2, World.log], by simp⟩

/-- Iteration for a candidate that connects: its socket is opened and not closed. -/
theorem connect_loop_step_connects (K : Consts) (t : Int) (a : Candidate)
    (rest : List Candidate) (ret fd : Int) (w : World) (h : a.connects t) :
    ∃ T, connect_loop K t (a :: rest) ret fd w =
        (0, a.sock, { opened := a.sock :: w.opened, trace := w.trace ++ T }) ∧
      (∀ d, T.count (Call.socket d) = if d = a.sock then 1 else 0) ∧
      (∀ d, Call.close d ∉ T) := by
  obtain ⟨Tt, hTt, hq⟩ := set_timeouts_world t a a.sock (w.socket a.sock)
  refine ⟨Call.socket a.sock :: (Tt ++ [Call.connect a.sock]), ?_, ?_, ?_⟩
  · rw [connect_loop_cons_connects K t a rest ret fd w h, hTt]
    simp [World.log, World.socket, h.1]
  · intro d
    have hz : Tt.count (Call.socket d) = 0 := List.count_eq_zero.2 (hq d).1
    by_cases hd : d = a.sock
    · subst hd
      simp [List.count_cons, List.count_append, hz]
    · have hd2 : a.sock ≠ d := fun e => hd e.symm
      simp [List.count_cons, List.count_append, hz, hd, hd2]
  · intro d
    simp [(hq d).2]

/-- Iteration for a candidate that does not connect: if its socket was created it is
closed again, once, before the loop goes on. -/
theorem connect_loop_step_fails (K : Consts) (t : Int) (a : Candidate)
    (rest : List Candidate) (ret fd : Int) (w : World) (h : ¬ a.connects t) :
    ∃ w1 T, connect_loop K t (a :: rest) ret fd w =
        connect_loop K t rest (a.failure K) a.sock w1 ∧
      w1.trace = w.trace ++ T ∧
      w1.opened = (if 0 ≤ a.sock then w.opened.filter (fun d => d ≠ a.sock) else w.opened) ∧
      (∀ d, 0 ≤ d → T.count (Call.socket d) = T.count (Call.close d)) ∧
      (∀ d, d < 0 → Call.close d ∉ T) ∧
      (∀ d, Call.socket d ∈ T ↔ d = a.sock) ∧
      (0 ≤ a.sock → Call.close a.sock ∈ T) := by
  by_cases h1 : a.sock < 0
  · refine ⟨w.socket a.sock, [Call.socket a.sock], ?_, ?_, ?_, ?_, ?_, ?_, ?_⟩
    · simp [connect_loop, Candidate.failure, h1]
    · simp [World.socket]
    · simp [World.socket, not_le.2 h1]
    · intro d hd
      have : a.sock ≠ d := by omega
      simp [List.count_cons, this]
    · simp
    · intro d; simp [eq_comm]
    · intro h0; omega
  · have h0 : 0 ≤ a.sock := not_lt.1 h1
    obtain ⟨Tt, hTt, hq⟩ := set_timeouts_world t a a.sock (w.socket a.sock)
    have hcount : ∀ (X : List Call), (∀ d, Call.socket d ∉ X ∧ Call.close d ∉ X) →
        (∀ d, 0 ≤ d → (Call.socket a.sock :: (X ++ [Call.close a.sock])).count (Call.socket d) =
          (Call.socket a.sock :: (X ++ [Call.close a.sock])).count (Call.close d)) ∧
        (∀ d, d < 0 → Call.close d ∉ Call.socket a.sock :: (X ++ [Call.close a.sock])) ∧
        (∀ d, Call.socket d ∈ Call.socket a.sock :: (X ++ [Call.close a.sock]) ↔ d = a.sock) ∧
        (0 ≤ a.sock → Call.close a.sock ∈ Call.socket a.sock :: (X ++ [Call.close a.sock])) := by
      intro X hX
      refine ⟨fun d _ => ?_, fun d hd => ?_, fun d => ?_, fun _ => by simp⟩
      · have z1 : X.count (Call.socket d) = 0 := List.count_eq_zero.2 (hX d).1
        have z2 : X.count (Call.close d) = 0 := List.count_eq_zero.2 (hX d).2
        by_cases hd : a.sock = d
        · simp [List.count_cons, List.count_append, z1, z2, hd]
        · simp [List.count_cons, List.count_append, z1, z2, hd]
      · have : d ≠ a.sock := by omega
        simp [(hX d).2, this]
      · simp [(hX d).1]
    by_cases hs : (set_timeouts t a a.sock (w.socket a.sock)).1 = true
    · have h2 := (set_timeouts_fst t a a.sock (w.socket a.sock)).1 hs
      have h3 : a.conn ≠ 0 := fun h3 => h ⟨h0, h2, h3⟩
      have hX : ∀ d, Call.socket d ∉ Tt ++ [Call.connect a.sock] ∧
          Call.close d ∉ Tt ++ [Call.connect a.sock] := by
        intro d; simp [(hq d).1, (hq d).2]
      obtain ⟨c1, c2, c3, c4⟩ := hcount _ hX
      refine ⟨((set_timeouts t a a.sock (w.socket a.sock)).2.log (Call.connect a.sock)).close
        a.sock, Call.socket a.sock :: ((Tt ++ [Call.connect a.sock]) ++ [Call.close a.sock]),
        ?_, ?_, ?_, c1, c2, c3, c4⟩
      · simp [connect_loop, Candidate.failure, h1, hs, h3]
      · rw [hTt]; simp [World.log, World.close, World.socket]
      · rw [hTt]; simp [World.log, World.close, World.socket, h0]
    · obtain ⟨c1, c2, c3, c4⟩ := hcount _ hq
      refine ⟨(set_timeouts t a a.sock (w.socket a.sock)).2.close a.sock,
        Call.socket a.sock :: (Tt ++ [Call.close a.sock]), ?_, ?_, ?_, c1, c2, c3, c4⟩
      · simp [connect_loop, Candidate.failure, h1, hs]
      · rw [hTt]; simp [World.close, World.socket]
      · rw [hTt]; simp [World.close, World.socket, h0]

/-- Accounting of the sockets over the whole loop. `T` is the list of calls the loop
issues. Every descriptor is created as often as it is closed, except the descriptor
left in `ctx->fd` by a candidate that connects, which is created once more than it is
closed; afterwards a descriptor created by the loop is open only if it is that handle,
and the other descriptors are open exactly if they were before. -/
theorem connect_loop_sockets (K : Consts) (t : Int) :
    ∀ (l : List Candidate) (ret fd : Int) (w : World),
      ∃ T, (connect_loop K t l ret fd w).2.2.trace = w.trace ++ T ∧
        (∀ d, 0 ≤ d →
          ((∃ a ∈ l, a.connects t) ∧ d = (connect_loop K t l ret fd w).2.1 →
            T.count (Call.socket d) = T.count (Call.close d) + 1) ∧
          (¬ ((∃ a ∈ l, a.connects t) ∧ d = (connect_loop K t l ret fd w).2.1) →
            T.count (Call.socket d) = T.count (Call.close d))) ∧
        (∀ d, d < 0 → Call.close d ∉ T) ∧
        (∀ d,
          (Call.socket d ∈ T ∧ 0 ≤ d →
            (d ∈ (connect_loop K t l ret fd w).2.2.opened ↔
              (∃ a ∈ l, a.connects t) ∧ d = (connect_loop K t l ret fd w).2.1)) ∧
          (¬ (Call.socket d ∈ T ∧ 0 ≤ d) →
            (d ∈ (connect_loop K t l ret fd w).2.2.opened ↔ d ∈ w.opened))) ∧
        ((∃ a ∈ l, a.connects t) →
          Call.socket (connect_loop K t l ret fd w).2.1 ∈ T ∧
          0 ≤ (connect_loop K t l ret fd w).2.1 ∧
          ∃ pre a post, l = pre ++ a :: post ∧ (∀ b ∈ pre, ¬ b.connects t) ∧
            a.connects t ∧ (connect_loop K t l ret fd w).2.1 = a.sock) ∧
        (∀ a rest, l = a :: rest → 0 ≤ a.sock → ¬ a.connects t → Call.close a.sock ∈ T)
  | [], ret, fd, w => by
    refine ⟨[], by simp [connect_loop], ?_, by simp, ?_, by simp, by simp⟩
    · intro d _; simp
    · intro d; simp [connect_loop]
  | a :: rest, ret, fd, w => by
    by_cases ha : a.connects t
    · obtain ⟨T, hT, hc, hcl⟩ := connect_loop_step_connects K t a rest ret fd w ha
      have hC : ∃ b ∈ a :: rest, b.connects t := ⟨a, List.mem_cons_self _ _, ha⟩
      have hmem : ∀ d, Call.socket d ∈ T ↔ d = a.sock := by
        intro d
        rw [← List.count_pos_iff, hc d]
        by_cases hd : d = a.sock <;> simp [hd]
      refine ⟨T, by rw [hT], ?_, fun d _ => hcl d, ?_, ?_, ?_⟩
      · intro d _
        rw [hT]
        have hz : T.count (Call.close d) = 0 := List.count_eq_zero.2 (hcl d)
        constructor
        · rintro ⟨_, hd⟩
          rw [hc d, hz, if_pos hd]
        · intro hn
          have hd : d ≠ a.sock := fun e => hn ⟨hC, e⟩
          rw [hc d, hz, if_neg hd]
      · intro d
        rw [hT]
        constructor
        · rintro ⟨hs, _⟩
          have hd := (hmem d).1 hs
          simp [hd, ha]
        · intro hn
          have hd : d ≠ a.sock := fun e => hn ⟨(hmem d).2 e, e ▸ ha.1⟩
          simp [hd]
      · intro _
        rw [hT]
        exact ⟨(hmem a.sock).2 rfl, ha.1, [], a, rest, rfl, by simp, ha, rfl⟩
      · intro b rest2 heq _ hb
        rw [List.cons.injEq] at heq
        exact absurd (heq.1 ▸ ha) hb
    · obtain ⟨w1, T1, hstep, htr, hop, c1, c2, c3, c4⟩ :=
        connect_loop_step_fails K t a rest ret fd w ha
      obtain ⟨T2, i0, i1, i2, i3, i4, _⟩ := connect_loop_sockets K t rest (a.failure K) a.sock w1
      have hC : (∃ b ∈ a :: rest, b.connects t) ↔ (∃ b ∈ rest, b.connects t) := by
        constructor
        · rintro ⟨b, hb, hbc⟩
          rcases List.mem_cons.1 hb with rfl | hb
          · exact absurd hbc ha
          · exact ⟨b, hb, hbc⟩
        · rintro ⟨b, hb, hbc⟩
          exact ⟨b, List.mem_cons_of_mem _ hb, hbc⟩
      rw [hstep, hC]
      refine ⟨T1 ++ T2, by rw [i0, htr, List.append_assoc], ?_, ?_, ?_, ?_, ?_⟩
      · intro d hd
        rw [List.count_append, List.count_append, c1 d hd]
        constructor
        · intro h; rw [(i1 d hd).1 h]; omega
        · intro h; rw [(i1 d hd).2 h]
      · intro d hd hmem
        rcases List.mem_append.1 hmem with h | h
        · exact c2 d hd h
        · exact i2 d hd h
      · intro d
        constructor
        · rintro ⟨hs, hd0⟩
          by_cases h2 : Call.socket d ∈ T2
          · exact (i3 d).1 ⟨h2, hd0⟩
          · have h1 : Call.socket d ∈ T1 := by
              rcases List.mem_append.1 hs with h | h
              · exact h
              · exact absurd h h2
            have hda : d = a.sock := (c3 d).1 h1
            rw [(i3 d).2 (fun h => h2 h.1), hop, if_pos (hda ▸ hd0)]
            constructor
            · intro hin
              simp [hda] at hin
            · rintro ⟨hc, hfd⟩
              exact absurd (hfd ▸ (i4 hc).1) h2
        · intro hn
          have h2 : ¬ (Call.socket d ∈ T2 ∧ 0 ≤ d) :=
            fun h => hn ⟨List.mem_append_right _ h.1, h.2⟩
          rw [(i3 d).2 h2, hop]
          by_cases h0 : 0 ≤ a.sock
          · have hda : d ≠ a.sock := by
              intro e
              exact hn ⟨List.mem_append_left _ ((c3 d).2 e), e ▸ h0⟩
            simp [h0, hda]
          · simp [h0]
      · intro hc
        obtain ⟨j1, j2, pre, b, post, hl, hpre, hb, hfd⟩ := i4 hc
        refine ⟨List.mem_append_right _ j1, j2, a :: pre, b, post, by rw [hl]; rfl, ?_, hb,
          hfd⟩
        intro x hx
        rcases List.mem_cons.1 hx with rfl | hx
        · exact ha
        · exact hpre x hx
      · intro b rest2 heq h0 _
        rw [List.cons.injEq] at heq
        exact List.mem_append_left _ (heq.1 ▸ c4 (heq.1 ▸ h0))

/-- With non-zero failure codes and a successful resolution, the call returns `0`
exactly when some candidate connects. -/
theorem connect_ret_zero_iff (K : Consts) (ctx : mbedtls_net_context) (r : Resolution)
    (w : World) (hrc : r.rc = 0)
    (hU : K.MBEDTLS_ERR_NET_UNKNOWN_HOST ≠ 0)
    (hS : K.MBEDTLS_ERR_NET_SOCKET_FAILED ≠ 0)
    (hC : K.MBEDTLS_ERR_NET_CONNECT_FAILED ≠ 0) :
    (mbedtls_net_connect K ctx r w).ret = 0 ↔ ∃ a ∈ r.addr_list, a.connects ctx.timeout_s := by
  rw [connect_ret_eq]
  by_cases hc : ∃ a ∈ r.addr_list, a.connects ctx.timeout_s
  · simp [hrc, hc]
  · simp only [hrc, ne_eq, not_true_eq_false, if_false, if_neg hc]
    refine iff_of_false ?_ hc
    cases r.addr_list.getLast? with
    | none => exact hU
    | some a =>
      simp only [Candidate.failure]
      split
      · exact hS
      · exact hC

/-- C10: `mbedtls_net_connect` leaks no socket. `T` is the list of calls issued by the
call. Every descriptor is created (`socket` returning it) exactly as often as it is
closed, except the handle stored in the context on success, which is created once more
than it is closed; no negative value is ever closed. After the call a descriptor
created by it is open only if the call succeeded and it is the stored handle, so on a
failed return none of them is open, and every other descriptor is open exactly if it
was before. On success the handle is the socket of the first candidate that connects.
With a first candidate whose socket is created and whose `connect` fails and a second
candidate that connects, the call returns `0`, the first socket is closed and the
handle is the second socket. The three failure codes are assumed non-zero. -/
theorem connect_leaks_no_socket (K : Consts) (ctx : mbedtls_net_context) (r : Resolution)
    (w : World)
    (hU : K.MBEDTLS_ERR_NET_UNKNOWN_HOST ≠ 0)
    (hS : K.MBEDTLS_ERR_NET_SOCKET_FAILED ≠ 0)
    (hC : K.MBEDTLS_ERR_NET_CONNECT_FAILED ≠ 0) :
    ∃ T, (mbedtls_net_connect K ctx r w).world.trace = w.trace ++ T ∧
      (∀ d, 0 ≤ d →
        T.count (Call.socket d) = T.count (Call.close d) +
          if (mbedtls_net_connect K ctx r w).ret = 0 ∧
              d = (mbedtls_net_connect K ctx r w).ctx.fd then 1 else 0) ∧
      (∀ d, d < 0 → Call.close d ∉ T) ∧
      (∀ d, Call.socket d ∈ T → 0 ≤ d →
        (d ∈ (mbedtls_net_connect K ctx r w).world.opened ↔
          (mbedtls_net_connect K ctx r w).ret = 0 ∧
            d = (mbedtls_net_connect K ctx r w).ctx.fd)) ∧
      (∀ d, ¬ (Call.socket d ∈ T ∧ 0 ≤ d) →
        (d ∈ (mbedtls_net_connect K ctx r w).world.opened ↔ d ∈ w.opened)) ∧
      ((mbedtls_net_connect K ctx r w).ret = 0 →
        ∃ pre a post, r.addr_list = pre ++ a :: post ∧
          (∀ b ∈ pre, ¬ b.connects ctx.timeout_s) ∧ a.connects ctx.timeout_s ∧
          (mbedtls_net_connect K ctx r w).ctx.fd = a.sock) ∧
      (∀ a b, r.rc = 0 → r.addr_list = [a, b] → 0 ≤ a.sock → a.conn ≠ 0 →
        b.connects ctx.timeout_s →
        (mbedtls_net_connect K ctx r w).ret = 0 ∧ Call.close a.sock ∈ T ∧
          (mbedtls_net_connect K ctx r w).ctx.fd = b.sock) := by
  by_cases hrc : r.rc = 0
  · have hz := connect_ret_zero_iff K ctx r w hrc hU hS hC
    obtain ⟨T, i0, i1, i2, i3, i4, i5⟩ := connect_loop_sockets K ctx.timeout_s r.addr_list
      K.MBEDTLS_ERR_NET_UNKNOWN_HOST ctx.fd (w.log Call.getaddrinfo)
    have hfd : (mbedtls_net_connect K ctx r w).ctx.fd =
        (connect_loop K ctx.timeout_s r.addr_list K.MBEDTLS_ERR_NET_UNKNOWN_HOST ctx.fd
          (w.log Call.getaddrinfo)).2.1 := by
      simp [mbedtls_net_connect, hrc]
    have hop : (mbedtls_net_connect K ctx r w).world.opened =
        (connect_loop K ctx.timeout_s r.addr_list K.MBEDTLS_ERR_NET_UNKNOWN_HOST ctx.fd
          (w.log Call.getaddrinfo)).2.2.opened := by
      simp [mbedtls_net_connect, hrc, World.log]
    have htr : (mbedtls_net_connect K ctx r w).world.trace =
        w.trace ++ (Call.getaddrinfo :: (T ++ [Call.freeaddrinfo])) := by
      have hw : (mbedtls_net_connect K ctx r w).world =
          (connect_loop K ctx.timeout_s r.addr_list K.MBEDTLS_ERR_NET_UNKNOWN_HOST ctx.fd
            (w.log Call.getaddrinfo)).2.2.log Call.freeaddrinfo := by
        simp [mbedtls_net_connect, hrc]
      rw [hw]
      show _ ++ [Call.freeaddrinfo] = _
      rw [i0]
      simp [World.log]
    have hs : ∀ d, Call.socket d ∈ Call.getaddrinfo :: (T ++ [Call.freeaddrinfo]) ↔
        Call.socket d ∈ T := by
      intro d; simp
    have hcl : ∀ d, Call.close d ∈ Call.getaddrinfo :: (T ++ [Call.freeaddrinfo]) ↔
        Call.close d ∈ T := by
      intro d; simp
    refine ⟨Call.getaddrinfo :: (T ++ [Call.freeaddrinfo]), htr, ?_, ?_, ?_, ?_, ?_, ?_⟩
    · intro d hd
      have e1 : (Call.getaddrinfo :: (T ++ [Call.freeaddrinfo])).count (Call.socket d) =
          T.count (Call.socket d) := by simp [List.count_cons, List.count_append]
      have e2 : (Call.getaddrinfo :: (T ++ [Call.freeaddrinfo])).count (Call.close d) =
          T.count (Call.close d) := by simp [List.count_cons, List.count_append]
      rw [e1, e2]
      split
      · rename_i h
        exact (i1 d hd).1 ⟨hz.1 h.1, hfd ▸ h.2⟩
      · rename_i h
        rw [(i1 d hd).2 (fun h2 => h ⟨hz.2 h2.1, hfd ▸ h2.2⟩)]
        rfl
    · intro d hd; rw [hcl]; exact i2 d hd
    · intro d h1 h2
      rw [hop, hz, hfd]
      exact (i3 d).1 ⟨(hs d).1 h1, h2⟩
    · intro d hn
      rw [hop, (i3 d).2 (fun h => hn ⟨(hs d).2 h.1, h.2⟩)]
      simp [World.log]
    · intro h0
      rw [hfd]
      exact (i4 (hz.1 h0)).2.2
    · intro a b _ hl h0 hconn hb
      have hna : ¬ a.connects ctx.timeout_s := fun h => hconn h.2.2
      have hc : ∃ x ∈ r.addr_list, x.connects ctx.timeout_s := ⟨b, by simp [hl], hb⟩
      refine ⟨hz.2 hc, (hcl _).2 (i5 a [b] hl h0 hna), ?_⟩
      have hl2 : connect_loop K ctx.timeout_s r.addr_list K.MBEDTLS_ERR_NET_UNKNOWN_HOST ctx.fd
          (w.log Call.getaddrinfo) = connect_loop K ctx.timeout_s [a, b]
          K.MBEDTLS_ERR_NET_UNKNOWN_HOST ctx.fd (w.log Call.getaddrinfo) := by rw [hl]
      obtain ⟨w1, hw1⟩ := connect_loop_cons_fails K ctx.timeout_s a [b]
        K.MBEDTLS_ERR_NET_UNKNOWN_HOST ctx.fd (w.log Call.getaddrinfo) hna
      rw [hfd, hl2, hw1, connect_loop_cons_connects K ctx.timeout_s b [] _ _ _ hb]
  · have hO : mbedtls_net_connect K ctx r w =
        { ret := K.MBEDTLS_ERR_NET_UNKNOWN_HOST, ctx := ctx, world := w.log Call.getaddrinfo } := by
      simp [mbedtls_net_connect, hrc]
    rw [hO]
    refine ⟨[Call.getaddrinfo], rfl, ?_, by simp, ?_, ?_, ?_, ?_⟩
    · intro d _
      simp [List.count_cons, hU]
    · intro d h; simp at h
    · intro d _; simp [World.log]
    · intro h; exact absurd h hU
    · intro a b h; exact absurd h hrc

/-- Instance of `connect_leaks_no_socket`: the first candidate's socket (descriptor 3)
is created and its `connect` returns `-1`; the second candidate (descriptor 4)
connects. The call returns `0`, closes descriptor 3 and stores handle 4. -/
theorem connect_leaks_no_socket_witness :
    (mbedtls_net_connect lwipConsts { fd := -1, timeout_s := 0 }
        { rc := 0, addr_list := [{ sock := 3, rcvtimeo := 0, sndtimeo := 0, conn := -1 },
                                 { sock := 4, rcvtimeo := 0, sndtimeo := 0, conn := 0 }] }
        { opened := [], trace := [] }).ret = 0 ∧
    (mbedtls_net_connect lwipConsts { fd := -1, timeout_s := 0 }
        { rc := 0, addr_list := [{ sock := 3, rcvtimeo := 0, sndtimeo := 0, conn := -1 },
                                 { sock := 4, rcvtimeo := 0, sndtimeo := 0, conn := 0 }] }
        { opened := [], trace := [] }).ctx.fd = 4 ∧
    ∃ T, (mbedtls_net_connect lwipConsts { fd := -1, timeout_s := 0 }
        { rc := 0, addr_list := [{ sock := 3, rcvtimeo := 0, sndtimeo := 0, conn := -1 },
                                 { sock := 4, rcvtimeo := 0, sndtimeo := 0, conn := 0 }] }
        { opened := [], trace := [] }).world.trace = [] ++ T ∧ Call.close 3 ∈ T :=
  Exists.elim
    (connect_leaks_no_socket lwipConsts { fd := -1, timeout_s := 0 }
      { rc := 0, addr_list := [{ sock := 3, rcvtimeo := 0, sndtimeo := 0, conn := -1 },
                               { sock := 4, rcvtimeo := 0, sndtimeo := 0, conn := 0 }] }
      { opened := [], trace := [] } (by decide) (by decide) (by decide))
    (fun T h =>
      have s := h.2.2.2.2.2.2 { sock := 3, rcvtimeo := 0, sndtimeo := 0, conn := -1 }
        { sock := 4, rcvtimeo := 0, sndtimeo := 0, conn := 0 } rfl rfl (by decide) (by decide)
        (by decide)
      ⟨s.1, s.2.2, T, h.1, s.2.1⟩)

/-! ## Where the handle invariant does hold -/

/-- The handle invariant holds after `mbedtls_net_init`. -/
theorem handle_ok_init (c : mbedtls_net_context) (w : World) :
    handle_ok (mbedtls_net_init c) w :=
  Or.inl rfl

/-- Receive keeps the handle invariant: it changes neither the context nor the set
of open descriptors. -/
theorem handle_ok_recv (K : Consts) (ctx : mbedtls_net_context) (len : Nat) (io : IoResult)
    (w : World) (errno : Int) (h : handle_ok ctx w) :
    handle_ok (mbedtls_net_recv K ctx len io w errno).ctx
      (mbedtls_net_recv K ctx len io w errno).world := by
  have ho : (mbedtls_net_recv K ctx len io w errno).world.opened = w.opened := by
    unfold mbedtls_net_recv
    simp only []
    repeat (first | rfl | split)
  unfold handle_ok at h ⊢
  rw [recv_ctx, ho]
  exact h

/-- Send keeps the handle invariant: it changes neither the context nor the set of
open descriptors. -/
theorem handle_ok_send (K : Consts) (ctx : mbedtls_net_context) (len : Nat) (io : IoResult)
    (w : World) (errno : Int) (h : handle_ok ctx w) :
    handle_ok (mbedtls_net_send K ctx len io w errno).ctx
      (mbedtls_net_send K ctx len io w errno).world := by
  have hc : (mbedtls_net_send K ctx len io w errno).ctx = ctx := by
    unfold mbedtls_net_send
    simp only []
    repeat (first | rfl | split)
  have ho : (mbedtls_net_send K ctx len io w errno).world.opened = w.opened := by
    unfold mbedtls_net_send
    simp only []
    repeat (first | rfl | split)
  unfold handle_ok at h ⊢
  rw [hc, ho]
  exact h

/-- The handle invariant holds after `mbedtls_net_free`: the handle is the sentinel. -/
theorem handle_ok_free (ctx : mbedtls_net_context) (w : World) :
    handle_ok (mbedtls_net_free ctx w).1 (mbedtls_net_free ctx w).2 := by
  unfold handle_ok mbedtls_net_free
  by_cases h : ctx.fd = -1
  · simp [h]
  · simp [h]

/-- The handle invariant holds after a `mbedtls_net_connect` in which some candidate
connects: the stored handle is the socket just opened. -/
theorem handle_ok_connect_of_connects (K : Consts) (ctx : mbedtls_net_context)
    (r : Resolution) (w : World) (hrc : r.rc = 0)
    (hc : ∃ a ∈ r.addr_list, a.connects ctx.timeout_s) :
    handle_ok (mbedtls_net_connect K ctx r w).ctx (mbedtls_net_connect K ctx r w).world := by
  obtain ⟨T, _, _, _, i3, i4, _⟩ := connect_loop_sockets K ctx.timeout_s r.addr_list
    K.MBEDTLS_ERR_NET_UNKNOWN_HOST ctx.fd (w.log Call.getaddrinfo)
  have hfd : (mbedtls_net_connect K ctx r w).ctx.fd =
      (connect_loop K ctx.timeout_s r.addr_list K.MBEDTLS_ERR_NET_UNKNOWN_HOST ctx.fd
        (w.log Call.getaddrinfo)).2.1 := by
    simp [mbedtls_net_connect, hrc]
  have hop : (mbedtls_net_connect K ctx r w).world.opened =
      (connect_loop K ctx.timeout_s r.addr_list K.MBEDTLS_ERR_NET_UNKNOWN_HOST ctx.fd
        (w.log Call.getaddrinfo)).2.2.opened := by
    simp [mbedtls_net_connect, hrc, World.log]
  right
  rw [hfd, hop]
  exact ((i3 _).1 ⟨(i4 hc).1, (i4 hc).2.1⟩).2 ⟨hc, rfl⟩

end NetSockets
